import Mathlib

/-!
Verification of the vicharak-api authorization and soft-delete lifecycle core.

The definitions below are a shallow embedding of the repository's Python/Django
source:
* `Role`, `Collaborator`, `Vichar` mirror `role/models.py`,
  `collaborator/models.py` and `vichar/models.py` (ids are primary keys,
  foreign keys are stored ids, `Collaborator.role` is nullable because of
  `on_delete=SET_NULL`, timestamps are abstract `Nat` instants).
* `get_permissions` embeds `CollaboratorSerializer.get_permissions`
  (`collaborator/serializers.py`); it returns `none` when the Python code
  raises (`obj.role.id` on a null role raises `AttributeError`, `role[0]` on
  an empty queryset raises `IndexError`).
* `validate_collaborator` embeds `VicharSerializer.validate_collaborator`
  (`vichar/serializers.py`): `none` models an uncaught exception, `some b`
  a returned boolean.
* `authCheck` is the `is_owner or has_permission` pattern repeated at every
  call site of the views/serializers.
* The lifecycle operations embed `VicharSerializer.update` / `.delete`,
  `AddCollaboratorSerializer.create` / `.update` and the `VicharViewSet`
  actions `restore`, `delete_permanently`, `update_collaborator`,
  `list_deleted` and `get_queryset` (`vicharak/views/vichars.py`).

Every operation returns a `Result`: a `Status` (success, Django/DRF error
response kind, or `crash` for an uncaught exception) together with the
database after the call; on an error path the database is returned unchanged,
which matches the source because every error is raised before any `save()` /
`delete()` call, and on `restore`'s late response-serialization crash the
mutation has already been committed.
-/

namespace Vicharak

/-- `role/models.py` `Role`: id, name, JSON list of permission strings. -/
structure Role where
  id : Nat
  name : String
  permissions : List String
  createdAt : Nat
deriving DecidableEq, Repr

/-- `collaborator/models.py` `Collaborator`: foreign keys stored as ids;
`role` is nullable (`on_delete=models.SET_NULL`). -/
structure Collaborator where
  id : Nat
  vichar : Nat
  owner : Nat
  collaborator : Nat
  role : Option Nat
  createdAt : Nat
deriving DecidableEq, Repr

/-- `vichar/models.py` `Vichar`: `user` is the owning user's id,
`deletedAt` is the nullable soft-delete timestamp. -/
structure Vichar where
  id : Nat
  user : Nat
  title : String
  body : String
  createdAt : Nat
  updatedAt : Option Nat
  deletedAt : Option Nat
deriving DecidableEq, Repr

/-- The persistent store: the four tables the core reads and writes. -/
structure DB where
  users : List Nat
  roles : List Role
  vichars : List Vichar
  collaborators : List Collaborator
deriving DecidableEq, Repr

/-- Outcome kind of one request: `ok`, a DRF error response, or `crash`
for an uncaught Python exception (HTTP 500). -/
inductive Status where
  | ok : Status
  | notFound : String → Status
  | permissionDenied : String → Status
  | validationError : String → Status
  | crash : Status
deriving DecidableEq, Repr

/-- A request outcome together with the database after the request. -/
structure Result where
  status : Status
  db : DB
deriving DecidableEq, Repr

/-- `Role.objects.filter(id=rid)` followed by taking the first row. -/
def findRole (db : DB) (rid : Nat) : Option Role :=
  db.roles.find? (fun r => r.id == rid)

/-- `CollaboratorSerializer.get_permissions` (`collaborator/serializers.py`):
`role = Role.objects.filter(id=obj.role.id); return role[0].permissions`.
When the collaborator's role reference is null, `obj.role.id` raises
`AttributeError`; when the filter is empty, `role[0]` raises `IndexError`.
Both uncaught exceptions are modelled as `none`. -/
def get_permissions (db : DB) (c : Collaborator) : Option (List String) :=
  match c.role with
  | none => none
  | some rid => (findRole db rid).map (fun r => r.permissions)

/-- `Collaborator.objects.filter(vichar=vicharId, collaborator=uid).first()`. -/
def findCollab (db : DB) (vicharId uid : Nat) : Option Collaborator :=
  db.collaborators.find? (fun c => c.vichar == vicharId && c.collaborator == uid)

/-- `VicharSerializer.validate_collaborator` (`vichar/serializers.py`):
no collaborator row → `False`; otherwise the row is serialized (computing
`get_permissions`, which can raise → `none`) and the permission string is
tested for exact membership in the role's permission list. -/
def validate_collaborator (db : DB) (vicharId uid : Nat) (permission : String) :
    Option Bool :=
  match findCollab db vicharId uid with
  | none => some false
  | some c =>
    match get_permissions db c with
    | none => none
    | some ps => some (ps.contains permission)

/-- `True` when evaluating `validate_collaborator` for this (vichar, user)
pair cannot raise: either no collaborator row exists, or its role reference
is non-null and resolves to an existing `Role` row. -/
def lookupSafe (db : DB) (vicharId uid : Nat) : Bool :=
  match findCollab db vicharId uid with
  | none => true
  | some c => (get_permissions db c).isSome

/-- The `is_owner or has_permission` gate repeated at every authorization
site of the source (`VicharSerializer.update` / `.delete`,
`VicharViewSet.restore` / `.delete_permanently` / `.remove_collaborator`,
`AddCollaboratorSerializer.create`): both operands are evaluated before the
test, so an exception in `validate_collaborator` propagates even when the
actor is the owner. -/
def authCheck (db : DB) (v : Vichar) (actor : Nat) (permission : String) :
    Option Bool :=
  match validate_collaborator db v.id actor permission with
  | none => none
  | some hasPermission => some (v.user == actor || hasPermission)

/-- The spec §3 invariant "the Vichar's owner can never simultaneously be its
own collaborator": no collaborator row pairs a vichar with its own owner. -/
def ownerNotCollab (db : DB) : Bool :=
  db.collaborators.all fun c =>
    db.vichars.all fun v => !(c.vichar == v.id) || !(c.collaborator == v.user)

/-- `VicharViewSet.get_queryset` (`vicharak/views/vichars.py`): vichars where
the requesting user is the owner or a collaborator, excluding soft-deleted
ones; `.distinct()` collapses join duplicates, so one entry per stored row. -/
def visibleQueryset (db : DB) (actor : Nat) : List Vichar :=
  db.vichars.filter fun v =>
    (v.user == actor
        || db.collaborators.any fun c => c.vichar == v.id && c.collaborator == actor)
      && v.deletedAt.isNone

/-- `VicharViewSet.list_deleted`: all vichars with a non-null `deleted_at`,
with no ownership filter. -/
def listDeleted (db : DB) : List Vichar :=
  db.vichars.filter fun v => v.deletedAt.isSome

/-- `True` when serializing the collaborator list of vichar `vid`
(`VicharSerializer.get_collaborators`) cannot raise: every collaborator row
of the vichar has a role reference resolving to an existing `Role`. -/
def collabsResolvable (db : DB) (vid : Nat) : Bool :=
  db.collaborators.all fun c => !(c.vichar == vid) || (get_permissions db c).isSome

/-- A partial-update payload: the optional `title` / `body` fields of
`VicharSerializer` (`fields = "__all__"`, PATCH semantics). -/
structure FieldPatch where
  title : Option String
  body : Option String
deriving DecidableEq, Repr

/-- `VicharSerializer.update` (`vichar/serializers.py` lines 52-68): gate on
owner-or-`EDIT_VICHAR`; on success stamp `updated_at = now` and apply the
validated fields via `super().update` (a row update by primary key); on
denial raise `ValidationError` with the permission message. -/
def vicharSerializerUpdate (db : DB) (actor : Nat) (v : Vichar)
    (patch : FieldPatch) (now : Nat) : Result :=
  match authCheck db v actor "EDIT_VICHAR" with
  | none => ⟨Status.crash, db⟩
  | some false =>
    ⟨Status.validationError "You do not have permission to edit this vichar.", db⟩
  | some true =>
    ⟨Status.ok,
      { db with
          vichars := db.vichars.map fun w =>
            if w.id == v.id then
              { w with
                  title := patch.title.getD w.title
                  body := patch.body.getD w.body
                  updatedAt := some now }
            else w }⟩

/-- `VicharViewSet.destroy` + `VicharSerializer.delete` + `Vichar.delete`
(soft delete): `get_object()` resolves the pk inside the visible queryset
(404 on a miss); the gate is owner-or-`DELETE_VICHAR`; on success
`deleted_at` is stamped with now and the row saved. -/
def destroyVichar (db : DB) (actor vid now : Nat) : Result :=
  match (visibleQueryset db actor).find? (fun w => w.id == vid) with
  | none => ⟨Status.notFound "No Vichar matches the given query.", db⟩
  | some v =>
    match authCheck db v actor "DELETE_VICHAR" with
    | none => ⟨Status.crash, db⟩
    | some false =>
      ⟨Status.validationError "You do not have permission to delete this vichar.", db⟩
    | some true =>
      ⟨Status.ok,
        { db with
            vichars := db.vichars.map fun w =>
              if w.id == v.id then { w with deletedAt := some now } else w }⟩

/-- `VicharViewSet.restore` (`vicharak/views/vichars.py` lines 57-82):
`Vichar.objects.filter(id=pk, deleted_at__isnull=False).first()` — 404 when
absent; gate on owner-or-`DELETE_VICHAR` (403 on denial); on success clear
`deleted_at` and save, then serialize the response, which raises if any
collaborator row of the vichar has an unresolvable role (the mutation has
already been committed at that point). -/
def restoreVichar (db : DB) (actor vid : Nat) : Result :=
  match db.vichars.find? (fun w => w.id == vid && w.deletedAt.isSome) with
  | none => ⟨Status.notFound "Vichar not found.", db⟩
  | some v =>
    match authCheck db v actor "DELETE_VICHAR" with
    | none => ⟨Status.crash, db⟩
    | some false =>
      ⟨Status.permissionDenied "You do not have permission to restore this vichar.", db⟩
    | some true =>
      let db2 : DB :=
        { db with
            vichars := db.vichars.map fun w =>
              if w.id == v.id then { w with deletedAt := none } else w }
      if collabsResolvable db2 v.id then ⟨Status.ok, db2⟩ else ⟨Status.crash, db2⟩

/-- `VicharViewSet.delete_permanently` (`vicharak/views/vichars.py` lines
102-130): `filter(pk=pk, deleted_at__isnull=False).first()` — 404 when the
vichar is absent or not soft-deleted; gate on owner-or-`DELETE_VICHAR`
(403 on denial); on success `vichar.delete(permanent=True)` removes the row
and, by `on_delete=CASCADE` on `Collaborator.vichar`, every collaborator row
of the vichar. -/
def deletePermanentlyVichar (db : DB) (actor vid : Nat) : Result :=
  match db.vichars.find? (fun w => w.id == vid && w.deletedAt.isSome) with
  | none => ⟨Status.notFound "Vichar not found.", db⟩
  | some v =>
    match authCheck db v actor "DELETE_VICHAR" with
    | none => ⟨Status.crash, db⟩
    | some false =>
      ⟨Status.permissionDenied "You do not have permission to delete this vichar.", db⟩
    | some true =>
      ⟨Status.ok,
        { db with
            vichars := db.vichars.filter fun w => !(w.id == v.id)
            collaborators := db.collaborators.filter fun c => !(c.vichar == v.id) }⟩

/-- `AddCollaboratorSerializer.create` (`vichar/serializers.py` lines
141-170), called with already-validated inputs: first the owner-as-target
check, then the owner-or-`ADD_COLLABORATOR` gate, then the duplicate check,
then the insert with `owner = vichar.user`. -/
def addCollaborator (db : DB) (actor : Nat) (v : Vichar) (target rid newId now : Nat) :
    Result :=
  if v.user == target then
    ⟨Status.validationError "Owner cannot be a collaborator.", db⟩
  else
    match authCheck db v actor "ADD_COLLABORATOR" with
    | none => ⟨Status.crash, db⟩
    | some false =>
      ⟨Status.validationError "You do not have permission to add collaborator.", db⟩
    | some true =>
      match findCollab db v.id target with
      | some _ => ⟨Status.validationError "Collaborator already exists.", db⟩
      | none =>
        ⟨Status.ok,
          { db with
              collaborators :=
                db.collaborators ++ [⟨newId, v.id, v.user, target, some rid, now⟩] }⟩

/-- `Collaborator.objects.get(vichar=..., collaborator=...)`: `some none`
models `DoesNotExist`, `some (some c)` the unique row, `none` the
`MultipleObjectsReturned` exception. -/
def getCollab (db : DB) (vid target : Nat) : Option (Option Collaborator) :=
  match db.collaborators.filter (fun c => c.vichar == vid && c.collaborator == target) with
  | [] => some none
  | [c] => some (some c)
  | _ => none

/-- `VicharViewSet.update_collaborator` + `AddCollaboratorSerializer.update`
(`vicharak/views/vichars.py` lines 152-170, `vichar/serializers.py` lines
173-199): `get_object()` resolves the vichar inside the visible queryset
(404 on a miss); serializer validation requires the target user and the role
to exist; then the collaborator row is fetched by (vichar, target) — `Http404`
when absent — and its role reassigned with **no permission check**. -/
def updateCollaboratorRole (db : DB) (actor vid target rid : Nat) : Result :=
  match (visibleQueryset db actor).find? (fun w => w.id == vid) with
  | none => ⟨Status.notFound "No Vichar matches the given query.", db⟩
  | some v =>
    if !(db.users.any fun u => u == target) then
      ⟨Status.validationError "Invalid pk: collaborator does not exist.", db⟩
    else if (findRole db rid).isNone then
      ⟨Status.validationError "Invalid pk: role does not exist.", db⟩
    else
      match getCollab db v.id target with
      | none => ⟨Status.crash, db⟩
      | some none => ⟨Status.notFound "Collaborator does not exist.", db⟩
      | some (some c) =>
        ⟨Status.ok,
          { db with
              collaborators := db.collaborators.map fun x =>
                if x.id == c.id then { x with role := some rid } else x }⟩

/-- `Role.save` normalization (`role/models.py`):
`self.permissions = list(set(self.permissions))` — duplicates removed,
order immaterial. -/
def normalize (l : List String) : List String :=
  l.dedup

/-- `Role.save`: the stored role carries the normalized permission list. -/
def roleSave (r : Role) : Role :=
  { r with permissions := normalize r.permissions }

/-- An active vichar with id 1 owned by user 1. -/
def exVichar : Vichar :=
  ⟨1, 1, "Idea1", "body", 0, none, none⟩

/-- A soft-deleted vichar with id 1 owned by user 1. -/
def exVicharDeleted : Vichar :=
  ⟨1, 1, "Idea1", "body", 0, none, some 5⟩

/-- State: user 2 is a collaborator on the active vichar 1 but the row's role
reference is null, as left behind by deleting the referenced `Role`
(`on_delete=SET_NULL`). A role table entry exists for contrast. -/
def dbNullRole : DB :=
  ⟨[1, 2], [⟨1, "editor", ["EDIT_VICHAR"], 0⟩], [exVichar], [⟨1, 1, 1, 2, none, 0⟩]⟩

/-- Same null-role collaborator state, but the vichar is soft-deleted. -/
def dbNullRoleDeleted : DB :=
  ⟨[1, 2], [], [exVicharDeleted], [⟨1, 1, 1, 2, none, 0⟩]⟩

/-- State: a collaborator row pairing vichar 1 with its own owner (user 1),
with a null role reference. -/
def dbOwnerRow : DB :=
  ⟨[1], [], [exVichar], [⟨1, 1, 1, 1, none, 0⟩]⟩

/-- State: user 2 collaborates on vichar 1 through role 1, which carries
exactly the permission `EDIT_VICHAR`. -/
def dbEditorRole : DB :=
  ⟨[1, 2], [⟨1, "editor", ["EDIT_VICHAR"], 0⟩], [exVichar], [⟨1, 1, 1, 2, some 1, 0⟩]⟩

/-- State: vichar 1 is soft-deleted; user 2 collaborates on it through
role 2, which carries exactly `DELETE_VICHAR`. -/
def dbC3 : DB :=
  ⟨[1, 2, 3], [⟨2, "deleter", ["DELETE_VICHAR"], 0⟩], [exVicharDeleted],
    [⟨1, 1, 1, 2, some 2, 0⟩]⟩

/-! ## Helper lemmas -/

theorem mem_eq_of_nodup_key {α : Type} (key : α → Nat) {l : List α}
    (hnd : (l.map key).Nodup) {x y : α} (hx : x ∈ l) (hy : y ∈ l)
    (hk : key x = key y) : x = y :=
  List.inj_on_of_nodup_map hnd hx hy hk

theorem find_eq_some_of_nodup_key {α : Type} (key : α → Nat) {l : List α}
    (p : α → Bool) (hnd : (l.map key).Nodup) {v : α} (hv : v ∈ l)
    (hp : p v = true) (hkey : ∀ w, p w = true → key w = key v) :
    l.find? p = some v := by
  induction l with
  | nil => cases hv
  | cons a t ih =>
    by_cases hpa : p a = true
    · have ha : a = v :=
        mem_eq_of_nodup_key key hnd (List.mem_cons_self a t) hv (hkey a hpa)
      rw [List.find?_cons_of_pos _ hpa, ha]
    · have hpa' : ¬ p a := by simpa using hpa
      have hv' : v ∈ t := by
        rcases List.mem_cons.mp hv with h | h
        · exact absurd (h ▸ hp) hpa'
        · exact h
      have hnd' : (t.map key).Nodup := by
        rw [List.map_cons] at hnd
        exact hnd.of_cons
      rw [List.find?_cons_of_neg _ hpa']
      exact ih hnd' hv'

theorem findCollab_owner_none {db : DB} {v : Vichar}
    (hWF : ownerNotCollab db = true) (hv : v ∈ db.vichars) :
    findCollab db v.id v.user = none := by
  rw [findCollab, List.find?_eq_none]
  intro c hc hp
  have h1 := (List.all_eq_true.mp hWF) c hc
  have h2 := (List.all_eq_true.mp h1) v hv
  simp only [Bool.or_eq_true, Bool.not_eq_true', beq_eq_false_iff_ne, ne_eq] at h2
  simp only [Bool.and_eq_true, beq_iff_eq] at hp
  rcases h2 with h | h
  · exact h hp.1
  · exact h hp.2

theorem validate_owner_false {db : DB} {v : Vichar}
    (hWF : ownerNotCollab db = true) (hv : v ∈ db.vichars) (P : String) :
    validate_collaborator db v.id v.user P = some false := by
  simp [validate_collaborator, findCollab_owner_none hWF hv]

theorem authCheck_owner {db : DB} {v : Vichar} {actor : Nat} (P : String)
    (hown : v.user = actor) (hWF : ownerNotCollab db = true) (hv : v ∈ db.vichars) :
    authCheck db v actor P = some true := by
  subst hown
  simp [authCheck, validate_owner_false hWF hv]

theorem authCheck_of_validate {db : DB} {v : Vichar} {actor : Nat} {P : String}
    (h : validate_collaborator db v.id actor P = some true) :
    authCheck db v actor P = some true := by
  simp [authCheck, h]

theorem ids_map_rowUpdate (l : List Vichar) (vid : Nat) (g : Vichar → Vichar)
    (hgid : ∀ w, (g w).id = w.id) :
    ((l.map fun w => if w.id == vid then g w else w).map fun w => w.id)
      = l.map fun w => w.id := by
  rw [List.map_map]
  congr 1
  funext w
  by_cases h : w.id = vid <;> simp [h, hgid]

theorem mem_rowUpdate_self {l : List Vichar} {v : Vichar} (hv : v ∈ l)
    (g : Vichar → Vichar) :
    g v ∈ l.map fun w => if w.id == v.id then g w else w := by
  have := List.mem_map_of_mem (fun w => if w.id == v.id then g w else w) hv
  simpa using this

theorem mem_rowUpdate_fixed {l : List Vichar}
    (hnd : (l.map fun w => w.id).Nodup) {v x : Vichar} (hv : v ∈ l)
    (g : Vichar → Vichar)
    (hx : x ∈ l.map fun w => if w.id == v.id then g w else w) (hid : x.id = v.id) :
    x = g v := by
  obtain ⟨w, hw, hxe⟩ := List.mem_map.mp hx
  by_cases h : (w.id == v.id) = true
  · have hwv : w = v := mem_eq_of_nodup_key (fun y => y.id) hnd hw hv (by simpa using h)
    rw [← hxe, hwv]
    simp
  · exfalso
    have hxw : x.id = w.id := by
      rw [← hxe]
      simp [h]
    rw [hid] at hxw
    exact h (by simp [hxw.symm])

/-! ## Claims -/

/-- Claim C1, counterexample: in a state holding a collaborator row that pairs
vichar 1 with its own owner (user 1) and carries a null role reference, the
authorization gate for the owner does not resolve to allow: the permission
lookup raises (`obj.role.id` on a null role), modelled as `none`. This
refutes "ownership alone grants every operation regardless of whether any
Collaborator row exists for (v, u) or what role it carries". -/
theorem c1_owner_row_null_role_not_allowed :
    exVichar.user = 1 ∧ authCheck dbOwnerRow exVichar 1 "EDIT_VICHAR" = none :=
  ⟨rfl, rfl⟩

/-- Claim C1, amended: for every vichar, owner and permission string, the
authorization gate resolves to allow provided the owner's own permission
lookup cannot raise — that is, any collaborator row for (v, owner) carries a
role reference resolving to an existing Role. (In every state satisfying the
spec's owner-not-collaborator invariant no such row exists at all, and the
proviso holds vacuously.) -/
theorem c1_owner_always_allowed (db : DB) (v : Vichar) (actor : Nat)
    (permission : String) (hown : v.user = actor)
    (hsafe : lookupSafe db v.id actor = true) :
    authCheck db v actor permission = some true := by
  have hne : validate_collaborator db v.id actor permission ≠ none := by
    intro hn
    simp only [validate_collaborator] at hn
    cases hfc : findCollab db v.id actor with
    | none => rw [hfc] at hn; simp at hn
    | some c =>
      rw [hfc] at hn
      simp only [lookupSafe, hfc] at hsafe
      cases hgp : get_permissions db c with
      | none => rw [hgp] at hsafe; simp at hsafe
      | some ps => simp [hgp] at hn
  cases hval : validate_collaborator db v.id actor permission with
  | none => exact absurd hval hne
  | some b => simp [authCheck, hval, hown]

/-- Witness for `c1_owner_always_allowed` at a concrete input: user 1 owns
vichar 1 in `dbEditorRole` and has no collaborator row of their own. -/
theorem c1_owner_always_allowed_witness :
    exVichar.user = 1 ∧ lookupSafe dbEditorRole exVichar.id 1 = true
      ∧ authCheck dbEditorRole exVichar 1 "DELETE_VICHAR" = some true :=
  ⟨rfl, rfl, c1_owner_always_allowed dbEditorRole exVichar 1 "DELETE_VICHAR" rfl rfl⟩

/-- Claim C2: the code evaluated at the failing input. For a non-owner
collaborator whose role reference is null, `validate_collaborator` raises
(`none`) instead of returning `false` as the spec states; with a non-null
role the permission test is exact string membership (`EDIT` does not match
`EDIT_VICHAR`). -/
theorem c2_null_role_lookup_crashes :
    validate_collaborator dbNullRole 1 2 "EDIT_VICHAR" = none
      ∧ validate_collaborator dbEditorRole 1 2 "EDIT_VICHAR" = some true
      ∧ validate_collaborator dbEditorRole 1 2 "EDIT" = some false
      ∧ validate_collaborator dbEditorRole 1 2 "DELETE_VICHAR" = some false :=
  ⟨rfl, rfl, rfl, rfl⟩

/-- Claim C4: the code evaluated at the failing input. Vichar 1 is
soft-deleted; user 2 is neither the owner nor a holder of `DELETE_VICHAR`
(their collaborator row has a null role). `restore` crashes with an
uncaught `AttributeError` (HTTP 500) instead of the PermissionDenied the
claim states, leaving the state unchanged. -/
theorem c4_restore_null_role_crashes :
    restoreVichar dbNullRoleDeleted 2 1 = ⟨Status.crash, dbNullRoleDeleted⟩
      ∧ (2 : Nat) ≠ exVicharDeleted.user
      ∧ validate_collaborator dbNullRoleDeleted 1 2 "DELETE_VICHAR" ≠ some true :=
  ⟨rfl, by decide, by decide⟩

/-- Claim C6: the code evaluated at the failing input. User 2 is neither the
owner of vichar 1 nor an `EDIT_VICHAR` collaborator (their row's role
reference is null); `update` crashes with an uncaught `AttributeError`
instead of signalling a permission-denied error. The vichar's state is
unchanged. -/
theorem c6_update_null_role_crashes :
    vicharSerializerUpdate dbNullRole 2 exVichar ⟨some "new title", none⟩ 9
        = ⟨Status.crash, dbNullRole⟩
      ∧ (2 : Nat) ≠ exVichar.user :=
  ⟨rfl, by decide⟩

/-- Claim C7: for every state, requesting actor, vichar and role, adding the
vichar's own owner as a collaborator fails with the ValidationError
"Owner cannot be a collaborator." and leaves the state unchanged. -/
theorem c7_owner_cannot_be_collaborator (db : DB) (actor : Nat) (v : Vichar)
    (rid newId now : Nat) :
    addCollaborator db actor v v.user rid newId now
      = ⟨Status.validationError "Owner cannot be a collaborator.", db⟩ := by
  simp [addCollaborator]

/-- Claim C9: `Role.save` stores the normalized permission list; the
normalization removes duplicates, preserves membership, and maps any two
lists with the same elements (any order, any repetitions) to the same set;
in particular `normalize ["A","B","A"]` equals `normalize ["B","A"]` as
sets. -/
theorem c9_role_permissions_normalized (l1 l2 : List String)
    (h : ∀ x, x ∈ l1 ↔ x ∈ l2) :
    (∀ r : Role, (roleSave r).permissions = normalize r.permissions)
      ∧ (∀ l : List String, (normalize l).Nodup)
      ∧ (∀ (l : List String) (x : String), x ∈ normalize l ↔ x ∈ l)
      ∧ (normalize l1).toFinset = (normalize l2).toFinset
      ∧ (normalize ["A", "B", "A"]).toFinset = (normalize ["B", "A"]).toFinset := by
  refine ⟨fun r => rfl, fun l => List.nodup_dedup l, fun l x => List.mem_dedup, ?_, ?_⟩
  · ext x
    simp only [List.mem_toFinset, normalize, List.mem_dedup]
    exact h x
  · decide

/-- Witness for `c9_role_permissions_normalized` at concrete inputs. -/
theorem c9_role_permissions_normalized_witness :
    (∀ x : String, x ∈ (["A", "B", "A"] : List String) ↔ x ∈ (["B", "A"] : List String))
      ∧ (normalize ["A", "B", "A"]).toFinset = (normalize ["B", "A"]).toFinset := by
  have hmem : ∀ x : String,
      x ∈ (["A", "B", "A"] : List String) ↔ x ∈ (["B", "A"] : List String) := by
    intro x
    simp only [List.mem_cons, List.not_mem_nil, or_false]
    tauto
  exact ⟨hmem, (c9_role_permissions_normalized ["A", "B", "A"] ["B", "A"] hmem).2.2.2.1⟩

/-- Claim C3: `permanentDelete` on a non-soft-deleted vichar answers 404 and
changes nothing; on a soft-deleted one, an actor who is the owner or who
holds `DELETE_VICHAR` through a collaborator role removes the vichar row and
every collaborator row referencing it. The `ownerNotCollab` hypothesis is
the spec's §3 invariant (no owner is their own collaborator), which keeps
the owner's permission lookup from raising. -/
theorem c3_permanent_delete_semantics (db : DB) (v : Vichar) (actor : Nat)
    (hnd : (db.vichars.map fun w => w.id).Nodup) (hv : v ∈ db.vichars)
    (hWF : ownerNotCollab db = true)
    (hq : v.user = actor
        ∨ validate_collaborator db v.id actor "DELETE_VICHAR" = some true) :
    (v.deletedAt = none →
        deletePermanentlyVichar db actor v.id
          = ⟨Status.notFound "Vichar not found.", db⟩)
      ∧ (v.deletedAt ≠ none →
          (deletePermanentlyVichar db actor v.id).status = Status.ok
            ∧ (∀ w ∈ (deletePermanentlyVichar db actor v.id).db.vichars, w.id ≠ v.id)
            ∧ ∀ c ∈ (deletePermanentlyVichar db actor v.id).db.collaborators,
                c.vichar ≠ v.id) := by
  constructor
  · intro hdel
    have hfind :
        db.vichars.find? (fun w => w.id == v.id && w.deletedAt.isSome) = none := by
      rw [List.find?_eq_none]
      intro w hw hp
      simp only [Bool.and_eq_true, beq_iff_eq] at hp
      have hw' : w = v := mem_eq_of_nodup_key (fun x => x.id) hnd hw hv hp.1
      rw [hw', hdel] at hp
      simp at hp
    simp [deletePermanentlyVichar, hfind]
  · intro hdel
    have hauth : authCheck db v actor "DELETE_VICHAR" = some true := by
      rcases hq with hown | hval
      · exact authCheck_owner _ hown hWF hv
      · exact authCheck_of_validate hval
    have hp : (fun w => w.id == v.id && w.deletedAt.isSome) v = true := by
      cases h : v.deletedAt with
      | none => exact absurd h hdel
      | some t => simp [h]
    have hfind :
        db.vichars.find? (fun w => w.id == v.id && w.deletedAt.isSome) = some v :=
      find_eq_some_of_nodup_key (fun w => w.id) _ hnd hv hp
        (fun w hw => by
          simp only [Bool.and_eq_true, beq_iff_eq] at hw
          exact hw.1)
    refine ⟨?_, ?_, ?_⟩
    · simp [deletePermanentlyVichar, hfind, hauth]
    · intro w hw
      simp [deletePermanentlyVichar, hfind, hauth, List.mem_filter] at hw
      exact hw.2
    · intro c hc
      simp [deletePermanentlyVichar, hfind, hauth, List.mem_filter] at hc
      exact hc.2

/-- Witness for `c3_permanent_delete_semantics`: vichar 1 is soft-deleted and
user 2 holds `DELETE_VICHAR` through role 2. -/
theorem c3_permanent_delete_semantics_witness :
    ((dbC3.vichars.map fun w => w.id).Nodup ∧ exVicharDeleted ∈ dbC3.vichars
        ∧ ownerNotCollab dbC3 = true
        ∧ validate_collaborator dbC3 exVicharDeleted.id 2 "DELETE_VICHAR" = some true)
      ∧ ((exVicharDeleted.deletedAt = none →
            deletePermanentlyVichar dbC3 2 exVicharDeleted.id
              = ⟨Status.notFound "Vichar not found.", dbC3⟩)
          ∧ (exVicharDeleted.deletedAt ≠ none →
              (deletePermanentlyVichar dbC3 2 exVicharDeleted.id).status = Status.ok
                ∧ (∀ w ∈ (deletePermanentlyVichar dbC3 2 exVicharDeleted.id).db.vichars,
                    w.id ≠ exVicharDeleted.id)
                ∧ ∀ c ∈ (deletePermanentlyVichar dbC3 2 exVicharDeleted.id).db.collaborators,
                    c.vichar ≠ exVicharDeleted.id)) :=
  ⟨⟨by decide, by decide, by decide, by decide⟩,
    c3_permanent_delete_semantics dbC3 exVicharDeleted 2 (by decide) (by decide)
      (by decide) (Or.inr (by decide))⟩

/-- Claim C8: when a collaborator row for (vichar, target) already exists, a
second `addCollaborator` never inserts anything (the collaborator table is
unchanged and the call does not succeed, whatever the actor), and for an
actor passing the permission gate with a target other than the owner it
fails with exactly `ValidationError "Collaborator already exists."`. -/
theorem c8_duplicate_collaborator_rejected (db : DB) (actor : Nat) (v : Vichar)
    (target rid newId now : Nat)
    (hex : (findCollab db v.id target).isSome = true) :
    ((addCollaborator db actor v target rid newId now).db = db
        ∧ (addCollaborator db actor v target rid newId now).status ≠ Status.ok)
      ∧ (v.user ≠ target →
          authCheck db v actor "ADD_COLLABORATOR" = some true →
          addCollaborator db actor v target rid newId now
            = ⟨Status.validationError "Collaborator already exists.", db⟩) := by
  obtain ⟨c, hc⟩ := Option.isSome_iff_exists.mp hex
  constructor
  · by_cases ht : v.user = target
    · subst ht
      simp [addCollaborator]
    · have ht' : (v.user == target) = false := by simpa using ht
      cases hauth : authCheck db v actor "ADD_COLLABORATOR" with
      | none => simp [addCollaborator, ht', hauth]
      | some b =>
        cases b with
        | false => simp [addCollaborator, ht', hauth]
        | true => simp [addCollaborator, ht', hauth, hc]
  · intro hne hauth
    have ht' : (v.user == target) = false := by simpa using hne
    simp [addCollaborator, ht', hauth, hc]

/-- Witness for `c8_duplicate_collaborator_rejected`: the owner (user 1) adds
user 2 to vichar 1 a second time. -/
theorem c8_duplicate_collaborator_rejected_witness :
    (findCollab dbEditorRole exVichar.id 2).isSome = true
      ∧ (((addCollaborator dbEditorRole 1 exVichar 2 1 7 9).db = dbEditorRole
            ∧ (addCollaborator dbEditorRole 1 exVichar 2 1 7 9).status ≠ Status.ok)
          ∧ (exVichar.user ≠ 2 →
              authCheck dbEditorRole exVichar 1 "ADD_COLLABORATOR" = some true →
              addCollaborator dbEditorRole 1 exVichar 2 1 7 9
                = ⟨Status.validationError "Collaborator already exists.", dbEditorRole⟩)) :=
  ⟨by decide, c8_duplicate_collaborator_rejected dbEditorRole 1 exVichar 2 1 7 9 (by decide)⟩

/-- Claim C10: `update_collaborator` performs no permission check of its own:
any actor who can reach the vichar (owner or collaborator of any role, on an
active vichar) and supplies an existing target user and role either gets 404
when no collaborator row exists for (vichar, target), or succeeds, the only
change being that row's role reassignment. -/
theorem c10_update_collaborator_no_permission_gate (db : DB) (v : Vichar)
    (actor target rid : Nat)
    (hnd : (db.vichars.map fun w => w.id).Nodup) (hv : v ∈ db.vichars)
    (hactive : v.deletedAt = none)
    (hreach : v.user = actor
        ∨ ∃ c ∈ db.collaborators, c.vichar = v.id ∧ c.collaborator = actor)
    (huser : target ∈ db.users) (hrole : (findRole db rid).isSome = true) :
    ((db.collaborators.filter fun c => c.vichar == v.id && c.collaborator == target)
          = [] →
        updateCollaboratorRole db actor v.id target rid
          = ⟨Status.notFound "Collaborator does not exist.", db⟩)
      ∧ ∀ c,
          (db.collaborators.filter fun x => x.vichar == v.id && x.collaborator == target)
              = [c] →
          (updateCollaboratorRole db actor v.id target rid).status = Status.ok
            ∧ (updateCollaboratorRole db actor v.id target rid).db.collaborators
                = db.collaborators.map fun x =>
                    if x.id == c.id then { x with role := some rid } else x := by
  have hfil :
      (fun w : Vichar =>
          (w.user == actor
              || db.collaborators.any fun c => c.vichar == w.id && c.collaborator == actor)
            && w.deletedAt.isNone) v = true := by
    simp only [Bool.and_eq_true, Bool.or_eq_true, beq_iff_eq, List.any_eq_true,
      Option.isNone_iff_eq_none]
    refine ⟨?_, hactive⟩
    rcases hreach with h | ⟨c, hc, h1, h2⟩
    · exact Or.inl h
    · exact Or.inr ⟨c, hc, by simp [h1, h2]⟩
  have hvq : v ∈ visibleQueryset db actor := List.mem_filter.mpr ⟨hv, hfil⟩
  have hndq : ((visibleQueryset db actor).map fun w => w.id).Nodup :=
    List.Nodup.sublist ((List.filter_sublist db.vichars).map (fun w => w.id)) hnd
  have hfind : (visibleQueryset db actor).find? (fun w => w.id == v.id) = some v :=
    find_eq_some_of_nodup_key (fun w => w.id) _ hndq hvq (by simp)
      (fun w hw => by simpa using hw)
  have husers : (db.users.any fun u => u == target) = true := by
    simp only [List.any_eq_true]
    exact ⟨target, huser, by simp⟩
  obtain ⟨r, hr⟩ := Option.isSome_iff_exists.mp hrole
  constructor
  · intro hempty
    have hget : getCollab db v.id target = some none := by
      simp [getCollab, hempty]
    simp [updateCollaboratorRole, hfind, husers, hr, hget]
  · intro c hone
    have hget : getCollab db v.id target = some (some c) := by
      simp [getCollab, hone]
    simp [updateCollaboratorRole, hfind, husers, hr, hget]

/-- Witness for `c10_update_collaborator_no_permission_gate`: user 2's only
permission is `EDIT_VICHAR` (no collaborator-management permission), yet
reassigning their own row's role to role 1 succeeds. -/
theorem c10_update_collaborator_no_permission_gate_witness :
    ((dbEditorRole.vichars.map fun w => w.id).Nodup ∧ exVichar ∈ dbEditorRole.vichars
        ∧ exVichar.deletedAt = none
        ∧ (∃ c ∈ dbEditorRole.collaborators,
            c.vichar = exVichar.id ∧ c.collaborator = 2)
        ∧ 2 ∈ dbEditorRole.users ∧ (findRole dbEditorRole 1).isSome = true)
      ∧ (((dbEditorRole.collaborators.filter fun c =>
              c.vichar == exVichar.id && c.collaborator == 2) = [] →
            updateCollaboratorRole dbEditorRole 2 exVichar.id 2 1
              = ⟨Status.notFound "Collaborator does not exist.", dbEditorRole⟩)
          ∧ ∀ c,
              (dbEditorRole.collaborators.filter fun x =>
                  x.vichar == exVichar.id && x.collaborator == 2) = [c] →
              (updateCollaboratorRole dbEditorRole 2 exVichar.id 2 1).status = Status.ok
                ∧ (updateCollaboratorRole dbEditorRole 2 exVichar.id 2 1).db.collaborators
                    = dbEditorRole.collaborators.map fun x =>
                        if x.id == c.id then { x with role := some 1 } else x) :=
  ⟨⟨by decide, by decide, by decide, by decide, by decide, by decide⟩,
    c10_update_collaborator_no_permission_gate dbEditorRole exVichar 2 2 1
      (by decide) (by decide) (by decide) (Or.inr (by decide)) (by decide) (by decide)⟩

/-- Claim C5: after the owner soft-deletes an active vichar it is listed by
`list_deleted` and no longer by the owner's visible queryset; after a
subsequent owner restore the reverse holds (memberships by row id). The
visible queryset contains exactly the stored vichars where the actor is the
owner or a collaborator and `deleted_at` is null, one entry per row id. -/
theorem c5_lifecycle_visibility (db : DB) (v : Vichar) (now : Nat)
    (hnd : (db.vichars.map fun w => w.id).Nodup) (hv : v ∈ db.vichars)
    (hactive : v.deletedAt = none) (hWF : ownerNotCollab db = true) :
    ((destroyVichar db v.user v.id now).status = Status.ok
        ∧ v.id ∈ (listDeleted (destroyVichar db v.user v.id now).db).map (fun w => w.id)
        ∧ v.id ∉
            (visibleQueryset (destroyVichar db v.user v.id now).db v.user).map
              (fun w => w.id)
        ∧ v.id ∈
            (visibleQueryset
                (restoreVichar (destroyVichar db v.user v.id now).db v.user v.id).db
                v.user).map (fun w => w.id)
        ∧ v.id ∉
            (listDeleted
                (restoreVichar (destroyVichar db v.user v.id now).db v.user v.id).db).map
              (fun w => w.id))
      ∧ (∀ (actor : Nat) (x : Vichar),
          x ∈ visibleQueryset db actor ↔
            x ∈ db.vichars
              ∧ (x.user = actor
                  ∨ ∃ c ∈ db.collaborators, c.vichar = x.id ∧ c.collaborator = actor)
              ∧ x.deletedAt = none)
      ∧ ∀ actor : Nat, ((visibleQueryset db actor).map fun w => w.id).Nodup := by
  have hfil : (fun w : Vichar =>
      (w.user == v.user
          || db.collaborators.any fun c => c.vichar == w.id && c.collaborator == v.user)
        && w.deletedAt.isNone) v = true := by
    simp [hactive]
  have hvq : v ∈ visibleQueryset db v.user := List.mem_filter.mpr ⟨hv, hfil⟩
  have hndq : ((visibleQueryset db v.user).map fun w => w.id).Nodup :=
    List.Nodup.sublist ((List.filter_sublist db.vichars).map (fun w => w.id)) hnd
  have hfind : (visibleQueryset db v.user).find? (fun w => w.id == v.id) = some v :=
    find_eq_some_of_nodup_key (fun w => w.id) _ hndq hvq (by simp)
      (fun w hw => by simpa using hw)
  have hauth : authCheck db v v.user "DELETE_VICHAR" = some true :=
    authCheck_owner _ rfl hWF hv
  have hr1 : destroyVichar db v.user v.id now
      = ⟨Status.ok,
          { db with vichars := db.vichars.map fun w =>
              if w.id == v.id then { w with deletedAt := some now } else w }⟩ := by
    simp [destroyVichar, hfind, hauth]
  set dbA : DB :=
    { db with vichars := db.vichars.map fun w =>
        if w.id == v.id then { w with deletedAt := some now } else w } with hdbA
  have hidsA : (dbA.vichars.map fun w => w.id) = db.vichars.map fun w => w.id :=
    ids_map_rowUpdate db.vichars v.id _ (fun w => rfl)
  have hndA : (dbA.vichars.map fun w => w.id).Nodup := by
    rw [hidsA]
    exact hnd
  have hvA : ({ v with deletedAt := some now } : Vichar) ∈ dbA.vichars :=
    mem_rowUpdate_self hv _
  have hmem1 : v.id ∈ (listDeleted dbA).map fun w => w.id := by
    apply List.mem_map.mpr
    refine ⟨{ v with deletedAt := some now }, ?_, rfl⟩
    exact List.mem_filter.mpr ⟨hvA, by simp⟩
  have hnot1 : v.id ∉ (visibleQueryset dbA v.user).map fun w => w.id := by
    intro hmem
    obtain ⟨x, hx, hxid⟩ := List.mem_map.mp hmem
    have hx' := List.mem_filter.mp hx
    have hxv : x = { v with deletedAt := some now } :=
      mem_rowUpdate_fixed hnd hv _ hx'.1 hxid
    have hpred := hx'.2
    rw [hxv] at hpred
    simp at hpred
  have hfind2 : dbA.vichars.find? (fun w => w.id == v.id && w.deletedAt.isSome)
      = some { v with deletedAt := some now } :=
    find_eq_some_of_nodup_key (fun w => w.id) _ hndA hvA (by simp)
      (fun w hw => by
        simp only [Bool.and_eq_true, beq_iff_eq] at hw
        exact hw.1)
  have hfcA : findCollab dbA v.id v.user = none := by
    have h0 := findCollab_owner_none hWF hv
    exact h0
  have hauthA :
      authCheck dbA { v with deletedAt := some now } v.user "DELETE_VICHAR"
        = some true := by
    have h0 : validate_collaborator dbA v.id v.user "DELETE_VICHAR" = some false := by
      simp [validate_collaborator, hfcA]
    simp [authCheck, h0]
  have hr2 : (restoreVichar dbA v.user v.id).db
      = { dbA with vichars := dbA.vichars.map fun w =>
          if w.id == v.id then { w with deletedAt := none } else w } := by
    simp only [restoreVichar, hfind2, hauthA, apply_ite, ite_self]
  set dbB : DB :=
    { dbA with vichars := dbA.vichars.map fun w =>
        if w.id == v.id then { w with deletedAt := none } else w } with hdbB
  have hvB : ({ v with deletedAt := none } : Vichar) ∈ dbB.vichars :=
    mem_rowUpdate_self hvA (fun w => { w with deletedAt := none })
  have hmem2 : v.id ∈ (visibleQueryset dbB v.user).map fun w => w.id := by
    apply List.mem_map.mpr
    refine ⟨{ v with deletedAt := none }, ?_, rfl⟩
    exact List.mem_filter.mpr ⟨hvB, by simp⟩
  have hnot2 : v.id ∉ (listDeleted dbB).map fun w => w.id := by
    intro hmem
    obtain ⟨x, hx, hxid⟩ := List.mem_map.mp hmem
    have hx' := List.mem_filter.mp hx
    have hxv : x = { v with deletedAt := none } :=
      mem_rowUpdate_fixed hndA hvA _ hx'.1 hxid
    have hpred := hx'.2
    rw [hxv] at hpred
    simp at hpred
  refine ⟨⟨?_, ?_, ?_, ?_, ?_⟩, ?_, ?_⟩
  · rw [hr1]
  · rw [hr1]
    exact hmem1
  · rw [hr1]
    exact hnot1
  · rw [hr1]
    show v.id ∈ (visibleQueryset (restoreVichar dbA v.user v.id).db v.user).map
      (fun w => w.id)
    rw [hr2]
    exact hmem2
  · rw [hr1]
    show v.id ∉ (listDeleted (restoreVichar dbA v.user v.id).db).map (fun w => w.id)
    rw [hr2]
    exact hnot2
  · intro actor x
    simp only [visibleQueryset, List.mem_filter, Bool.and_eq_true, Bool.or_eq_true,
      beq_iff_eq, List.any_eq_true, Option.isNone_iff_eq_none]
  · intro actor
    exact List.Nodup.sublist ((List.filter_sublist db.vichars).map (fun w => w.id)) hnd

/-- Witness for `c5_lifecycle_visibility`: owner 1 soft-deletes and then
restores the active vichar 1 of `dbEditorRole`. -/
theorem c5_lifecycle_visibility_witness :
    ((dbEditorRole.vichars.map fun w => w.id).Nodup
        ∧ exVichar ∈ dbEditorRole.vichars
        ∧ exVichar.deletedAt = none
        ∧ ownerNotCollab dbEditorRole = true)
      ∧ (((destroyVichar dbEditorRole exVichar.user exVichar.id 7).status = Status.ok
            ∧ exVichar.id ∈
                (listDeleted
                    (destroyVichar dbEditorRole exVichar.user exVichar.id 7).db).map
                  (fun w => w.id)
            ∧ exVichar.id ∉
                (visibleQueryset
                    (destroyVichar dbEditorRole exVichar.user exVichar.id 7).db
                    exVichar.user).map (fun w => w.id)
            ∧ exVichar.id ∈
                (visibleQueryset
                    (restoreVichar
                        (destroyVichar dbEditorRole exVichar.user exVichar.id 7).db
                        exVichar.user exVichar.id).db
                    exVichar.user).map (fun w => w.id)
            ∧ exVichar.id ∉
                (listDeleted
                    (restoreVichar
                        (destroyVichar dbEditorRole exVichar.user exVichar.id 7).db
                        exVichar.user exVichar.id).db).map (fun w => w.id))
          ∧ (∀ (actor : Nat) (x : Vichar),
              x ∈ visibleQueryset dbEditorRole actor ↔
                x ∈ dbEditorRole.vichars
                  ∧ (x.user = actor
                      ∨ ∃ c ∈ dbEditorRole.collaborators,
                          c.vichar = x.id ∧ c.collaborator = actor)
                  ∧ x.deletedAt = none)
          ∧ ∀ actor : Nat,
              ((visibleQueryset dbEditorRole actor).map fun w => w.id).Nodup) :=
  ⟨⟨by decide, by decide, by decide, by decide⟩,
    c5_lifecycle_visibility dbEditorRole exVichar 7 (by decide) (by decide) (by decide)
      (by decide)⟩

end Vicharak
